import Mathlib

/-!
# Verification of the kvtool namespace synchronization engine

A shallow embedding of `src/kvtool.ts` (current revision) and of the
earliest revision's `copyNamespace` (src/unnamed/part_003), together with
theorems checking the design document against the code.

Modelling conventions:
* JSON values are the inductive `Json` (numbers as integers).
* The remote store is a `KVWorld`: per-endpoint response oracles for an
  error-free server (namespace listing in server title order, key listing,
  value reads, and the id assigned on creation).  Every operation records
  the exact `Request` it issues (category, action, HTTP method, body) in a
  trace, so URL shape and request ordering are checked on the trace while
  responses are supplied by the oracles.
* The transport's envelope handling (`fetchAPI`) is modelled separately
  over an arbitrary `Server` of raw responses.
* `await`-sequencing becomes sequential composition; a `Promise.all`
  fan-out becomes `promiseAll` over the list of already-settled outcomes,
  with the trace recording that every request of the fan-out is issued.
* Exceptions (`throw Error(...)`) become `Except String`.
-/

/-- JSON values; numbers are modelled as integers. -/
inductive Json where
  | null : Json
  | bool : Bool → Json
  | num : Int → Json
  | str : String → Json
  | arr : List Json → Json
  | obj : List (String × Json) → Json

/-- JavaScript truthiness of a JSON value: `null`, `false`, `0` and the
empty string are falsy; arrays and objects are always truthy. -/
def jsTruthy : Json → Bool
  | Json.null => false
  | Json.bool b => b
  | Json.num n => n != 0
  | Json.str s => s != ""
  | Json.arr _ => true
  | Json.obj _ => true

/-- Escape one character for a JSON string literal. -/
def escapeStringChar (c : Char) : String :=
  if c = '"' then "\\\"" else if c = '\\' then "\\\\" else String.singleton c

/-- Escape the characters of a string for a JSON string literal. -/
def escapeString (s : String) : String :=
  String.join (s.data.map escapeStringChar)

mutual

/-- `JSON.stringify` on the `Json` model. -/
def serialize : Json → String
  | Json.null => "null"
  | Json.bool b => if b then "true" else "false"
  | Json.num n => toString n
  | Json.str s => "\"" ++ escapeString s ++ "\""
  | Json.arr xs => "[" ++ serializeItems xs ++ "]"
  | Json.obj fs => "\x7b" ++ serializeFields fs ++ "\x7d"

/-- Comma-separated serialization of array items. -/
def serializeItems : List Json → String
  | [] => ""
  | [x] => serialize x
  | x :: y :: xs => serialize x ++ "," ++ serializeItems (y :: xs)

/-- Comma-separated serialization of object fields. -/
def serializeFields : List (String × Json) → String
  | [] => ""
  | [(k, v)] => "\"" ++ escapeString k ++ "\":" ++ serialize v
  | (k, v) :: f :: fs =>
      "\"" ++ escapeString k ++ "\":" ++ serialize v ++ "," ++ serializeFields (f :: fs)

end

/-- HTTP methods used by the tool (kvtool.ts line 29). -/
inductive Method where
  | GET : Method
  | POST : Method
  | PUT : Method
  | DELETE : Method
deriving DecidableEq

/-- One entry of the remote API's error list (kvtool.ts lines 18-21). -/
structure ApiError where
  code : Int
  message : String
deriving DecidableEq

/-- `ApiError.stringify` (kvtool.ts lines 23-27). -/
def ApiError.stringify (error : ApiError) : String :=
  toString error.code ++ ": " ++ error.message

/-- The decoded response envelope (kvtool.ts lines 11-16). -/
structure ApiResponse where
  success : Bool
  errors : List ApiError
  messages : List String
  result : Json

/-- A `{key, value}` pair of the bulk upsert payload. -/
structure Pair where
  key : String
  value : Json

/-- A JSON-serializable request body, as the tool builds them:
`{ title }` objects, bulk-upsert pair lists, bulk-delete key-name lists. -/
inductive Body where
  | titleObj : String → Body
  | pairs : List Pair → Body
  | names : List String → Body

/-- One HTTP request issued by the tool.  The full URL is
`https://api.cloudflare.com/client/v4/accounts/<accountId>/<category>/<action>`
(kvtool.ts line 53). -/
structure Request where
  category : String
  action : String
  method : Method
  body : Option Body

/-- The account-relative URL path of a request (kvtool.ts line 53). -/
def urlPath (accountId : String) (r : Request) : String :=
  "accounts/" ++ accountId ++ "/" ++ r.category ++ "/" ++ r.action

/-- Whether `pat` occurs as a substring of `s` (JavaScript `includes`). -/
def containsSubstr (s pat : String) : Bool :=
  (s.splitOn pat).length != 1

/-- Raw remote responses for the transport model: an envelope for ordinary
endpoints, an arbitrary JSON body for value-read endpoints. -/
structure Server where
  respond : Request → ApiResponse
  valueAt : Request → Json

/-- Result of one `fetchAPI` call: a raw JSON payload (value-read
endpoints) or a checked envelope (everything else). -/
inductive FetchOut where
  | raw : Json → FetchOut
  | env : ApiResponse → FetchOut

/-- `fetchAPI` (kvtool.ts lines 43-77): issues one request; if the action
contains `/values/` the decoded body is returned unmodified; otherwise the
envelope is decoded and, when `success` is false, the call throws the
errors joined by newlines.  The second component is the list of requests
issued (always exactly one; no retry). -/
def fetchAPI (srv : Server) (category action : String) (method : Method)
    (body : Option Body) : Except String FetchOut × List Request :=
  let req : Request := { category := category, action := action, method := method, body := body }
  if containsSubstr action "/values/" then
    (Except.ok (FetchOut.raw (srv.valueAt req)), [req])
  else
    let object := srv.respond req
    if object.success then (Except.ok (FetchOut.env object), [req])
    else
      (Except.error (String.intercalate "\n" (object.errors.map ApiError.stringify)), [req])

/-- A namespace as reported by the listing endpoint (kvtool.ts lines 86-90). -/
structure Namespace where
  id : String
  title : String
  support_url_encoding : Bool
deriving DecidableEq

/-- A key entry of the key-listing result (kvtool.ts lines 164-168). -/
structure KeyEntry where
  name : String
  expiration : Option Int
  metadata : Option (List (String × String))
deriving DecidableEq

/-- The remote store modelled as per-endpoint response oracles of an
error-free server: `namespaces` is the full listing in server title order,
`keysOf` the key listing of a namespace id, `valueOf` the value body
returned for a key of a namespace, and `createId` the id the server
assigns when a namespace with a given title is created.  Envelope failures
are modelled separately in `fetchAPI`. -/
structure KVWorld where
  namespaces : List Namespace
  keysOf : String → List KeyEntry
  valueOf : String → String → Json
  createId : String → String

/-- The slice of the title-ordered listing the server returns for a
`page`/`per_page` query. -/
def pageOf (nss : List Namespace) (perPage page : Nat) : List Namespace :=
  (nss.drop ((page - 1) * perPage)).take perPage

/-- The page-listing request (kvtool.ts lines 98-103). -/
def listReq (page perPage : Nat) : Request :=
  { category := "storage/kv"
    action := "namespaces?page=" ++ toString page ++ "&per_page=" ++ toString perPage
      ++ "&order=title"
    method := Method.GET
    body := none }

/-- The `while (true)` pagination loop of `listNamespaces` (kvtool.ts
lines 97-111): request the current page, append its result, stop as soon
as a page is shorter than `perPage`, otherwise continue with the next
page.  `fuel` bounds the iteration count; `listNamespaces` supplies enough
fuel for its honest page oracle, so the `0` case is never reached there. -/
def listLoop (pf : Nat → List Namespace) (perPage : Nat) :
    Nat → Nat → List Namespace → List Request → List Namespace × List Request
  | 0, _, acc, reqs => (acc, reqs)
  | fuel + 1, page, acc, reqs =>
    let result := pf page
    if result.length < perPage then (acc ++ result, reqs ++ [listReq page perPage])
    else listLoop pf perPage fuel (page + 1) (acc ++ result) (reqs ++ [listReq page perPage])

/-- `listNamespaces` (kvtool.ts lines 92-120): paginated listing with
fixed page size 20, starting at page 1, in server title order.  Returns
the accumulated namespaces and the trace of issued requests.  (The
`verbose` console printing is pure output and is not modelled.) -/
def listNamespaces (w : KVWorld) : List Namespace × List Request :=
  listLoop (pageOf w.namespaces 20) 20 (w.namespaces.length / 20 + 1) 1 [] []

/-- `getNamespaceId` (kvtool.ts lines 79-84): full listing, then the first
namespace whose title equals the argument; `undefined` becomes `none`. -/
def getNamespaceId (w : KVWorld) (title : String) : Option String × List Request :=
  let l := listNamespaces w
  ((l.1.find? (fun namespace_ => namespace_.title == title)).map (fun namespace_ => namespace_.id),
    l.2)

/-- `renameNamespace` (kvtool.ts lines 122-133): resolve the source title;
`if (!id)` throws not-found (on `undefined` and on the empty string);
otherwise issue the title-update request. -/
def renameNamespace (w : KVWorld) (src dest : String) : Except String Unit × List Request :=
  let r := getNamespaceId w src
  match r.1 with
  | none => (Except.error ("Namespace " ++ src ++ " not found"), r.2)
  | some id =>
    if id == "" then (Except.error ("Namespace " ++ src ++ " not found"), r.2)
    else
      (Except.ok (),
        r.2 ++ [{ category := "storage/kv", action := "namespaces/" ++ id,
                  method := Method.PUT, body := some (Body.titleObj dest) }])

/-- `createNamespace` (kvtool.ts lines 135-144): issue the creation
request and return the id the server assigned. -/
def createNamespace (w : KVWorld) (title : String) : String × List Request :=
  (w.createId title,
    [{ category := "storage/kv", action := "namespaces", method := Method.POST,
       body := some (Body.titleObj title) }])

/-- The value-read request of the per-key fan-out (kvtool.ts line 171). -/
def valueReq (srcId name : String) : Request :=
  { category := "storage/kv", action := "namespaces/" ++ srcId ++ "/values/" ++ name,
    method := Method.GET, body := none }

/-- One task of the per-key fan-out (kvtool.ts lines 170-179): read the
value; `if (!value)` throws the missing-value error on a falsy payload;
otherwise produce the `{key, value}` pair. -/
def fetchPair (w : KVWorld) (srcId : String) (k : KeyEntry) : Except String Pair :=
  let value := w.valueOf srcId k.name
  if jsTruthy value then Except.ok { key := k.name, value := value }
  else Except.error ("Value not found for a key " ++ k.name ++ ".")

/-- `Promise.all` over already-settled outcomes: the first rejection (in
list order) rejects the aggregate, otherwise all results are collected. -/
def promiseAll {α : Type} : List (Except String α) → Except String (List α)
  | [] => Except.ok []
  | x :: xs =>
    match x with
    | Except.error e => Except.error e
    | Except.ok a => (promiseAll xs).map (fun l => a :: l)

/-- The spec's `fetchAllValues`: the `Promise.all` per-key value fan-out
inlined in `bulkGetNamespace` (kvtool.ts lines 170-179).  All value-read
requests are issued (second component); the aggregate fails if any task
throws, with no partial pair list. -/
def fetchAllValues (w : KVWorld) (srcId : String) (keys : List KeyEntry) :
    Except String (List Pair) × List Request :=
  (promiseAll (keys.map (fetchPair w srcId)), keys.map (fun k => valueReq srcId k.name))

/-- `bulkGetNamespace` (kvtool.ts lines 155-180): resolve the title
(`if (!srcId)` throws not-found), list the keys — note the category string
`"strage/kv"` of the key-listing request, mirroring line 162 verbatim —
then fan out one value read per key. -/
def bulkGetNamespace (w : KVWorld) (title : String) : Except String (List Pair) × List Request :=
  let r := getNamespaceId w title
  match r.1 with
  | none => (Except.error ("Namespace " ++ title ++ " not found."), r.2)
  | some srcId =>
    if srcId == "" then (Except.error ("Namespace " ++ title ++ " not found."), r.2)
    else
      let keys := w.keysOf srcId
      let fv := fetchAllValues w srcId keys
      (fv.1,
        r.2 ++ [{ category := "strage/kv", action := "namespaces/" ++ srcId ++ "/keys",
                  method := Method.GET, body := none }] ++ fv.2)

/-- The bulk-upsert request of `copyNamespace` (kvtool.ts line 150). -/
def bulkPutReq (destId : String) (pairs : List Pair) : Request :=
  { category := "storage/kv", action := "namespaces/" ++ destId ++ "/bulk",
    method := Method.PUT, body := some (Body.pairs pairs) }

/-- `copyNamespace` (kvtool.ts lines 146-153): bulk-get the source, then
resolve the destination title and — via `??`, i.e. exactly on `undefined`
— create it, then issue one bulk-upsert request with all pairs. -/
def copyNamespace (w : KVWorld) (src dest : String) : Except String Unit × List Request :=
  let bg := bulkGetNamespace w src
  match bg.1 with
  | Except.error e => (Except.error e, bg.2)
  | Except.ok pairs =>
    let rd := getNamespaceId w dest
    match rd.1 with
    | some destId => (Except.ok (), bg.2 ++ rd.2 ++ [bulkPutReq destId pairs])
    | none =>
      let cr := createNamespace w dest
      (Except.ok (), bg.2 ++ rd.2 ++ cr.2 ++ [bulkPutReq cr.1 pairs])

/-- `clearNamespace` (kvtool.ts lines 182-202): resolve the title, list
the keys (category `"storage/kv"` here, line 189), then issue one
bulk-delete request with the key names. -/
def clearNamespace (w : KVWorld) (title : String) : Except String Unit × List Request :=
  let r := getNamespaceId w title
  match r.1 with
  | none => (Except.error ("Namespace " ++ title ++ " not found."), r.2)
  | some id =>
    if id == "" then (Except.error ("Namespace " ++ title ++ " not found."), r.2)
    else
      let keys := w.keysOf id
      let keyNames := keys.map (fun k => k.name)
      (Except.ok (),
        r.2 ++ [{ category := "storage/kv", action := "namespaces/" ++ id ++ "/keys",
                  method := Method.GET, body := none },
                { category := "storage/kv", action := "namespaces/" ++ id ++ "/bulk",
                  method := Method.DELETE, body := some (Body.names keyNames) }])

/-- Local filesystem events of `dumpNamespace`, with explicit start and
completion markers for the directory-ensuring step. -/
inductive FsEvent where
  | ensureDirStart : String → FsEvent
  | writeStart : String → String → FsEvent
  | ensureDirDone : String → FsEvent
deriving DecidableEq

/-- `dumpNamespace` (kvtool.ts lines 204-213): bulk-get the namespace,
call `ensureDir(dir)` — whose returned promise is **not** awaited (line
207) — then start one `writeTextFile` per pair (file name `join dir key`,
contents `JSON.stringify(value)`).  Under the single-threaded event loop
the synchronous body starts every write before the pending `ensureDir`
promise can resume, so the event trace records `ensureDirDone` after all
`writeStart` events. -/
def dumpNamespace (w : KVWorld) (title dir : String) :
    Except String Unit × List Request × List FsEvent :=
  let bg := bulkGetNamespace w title
  match bg.1 with
  | Except.error e => (Except.error e, bg.2, [])
  | Except.ok pairs =>
    (Except.ok (), bg.2,
      FsEvent.ensureDirStart dir ::
        (pairs.map (fun pair =>
            FsEvent.writeStart (dir ++ "/" ++ pair.key) (serialize pair.value))
          ++ [FsEvent.ensureDirDone dir]))

/-- The effect of a bulk-upsert payload on a namespace's key-value map:
each pair sets its key to its value (later pairs win). -/
def applyBulkPut (m : String → Option Json) (pairs : List Pair) : String → Option Json :=
  pairs.foldl (fun acc p => fun k => if k = p.key then some p.value else acc k) m


/-- Whether every write start in an event trace happens only after a
completed directory-ensuring step: scan left to right, tracking whether
`ensureDirDone` has occurred and whether every `writeStart` so far came
after it. -/
def ensuredBeforeWrites (evs : List FsEvent) : Bool :=
  (evs.foldl
    (fun st e =>
      match e with
      | FsEvent.ensureDirDone _ => (true, st.2)
      | FsEvent.writeStart _ _ => (st.1, st.2 && st.1)
      | FsEvent.ensureDirStart _ => st)
    (false, true)).2

section HelperLemmas

/-- Shifting a cons into a `List.range`-map: prepending the image of `page`
to the images of `page + 1 + i` gives the images of `page + i` over a range
one longer. -/
theorem range_map_shift {α : Type} (f : Nat → α) (k page : Nat) :
    f page :: (List.range k).map (fun i => f (page + 1 + i)) =
      (List.range (k + 1)).map (fun i => f (page + i)) := by
  rw [List.range_succ_eq_map]
  simp only [List.map_cons, List.map_map, Nat.add_zero]
  congr 1
  apply List.map_congr_left
  intro i _
  simp only [Function.comp]
  congr 1
  omega

/-- Unfolding of the pagination loop against an honest page oracle: if
`pf` serves consecutive slices of `l` starting at `page`, and the fuel
covers the page count, the loop returns all of `l` and issues exactly
`l.length / 20 + 1` page requests, sequentially from `page`.  Stated for
the fixed page size 20 the code uses. -/
theorem listLoop_spec (pf : Nat → List Namespace) :
    ∀ (fuel : Nat) (l : List Namespace) (page : Nat) (acc : List Namespace)
      (reqs : List Request),
      (∀ j, pf (page + j) = (l.drop (20 * j)).take 20) →
      l.length / 20 + 1 ≤ fuel →
      listLoop pf 20 fuel page acc reqs =
        (acc ++ l,
          reqs ++ (List.range (l.length / 20 + 1)).map (fun i => listReq (page + i) 20)) := by
  intro fuel
  induction fuel with
  | zero => intro l page acc reqs _ h2; omega
  | succ fuel ih =>
    intro l page acc reqs hpf hfuel
    have h0 : pf page = l.take 20 := by simpa using hpf 0
    by_cases hlen : l.length < 20
    · have hdiv : l.length / 20 = 0 := Nat.div_eq_of_lt hlen
      have htake : l.take 20 = l := List.take_of_length_le (by omega)
      simp only [listLoop, h0, htake, hdiv]
      rw [if_pos hlen]
      simp [List.range_succ]
    · have hpf' : ∀ j, pf (page + 1 + j) = ((l.drop 20).drop (20 * j)).take 20 := by
        intro j
        rw [List.drop_drop]
        have harg : 20 + 20 * j = 20 * (j + 1) := by ring
        have hpage : page + 1 + j = page + (j + 1) := by omega
        rw [harg, hpage]
        exact hpf (j + 1)
      have hfuel' : (l.drop 20).length / 20 + 1 ≤ fuel := by
        rw [List.length_drop]; omega
      have hk : (l.drop 20).length / 20 + 1 = l.length / 20 := by
        rw [List.length_drop]; omega
      simp only [listLoop, h0]
      rw [if_neg (by rw [List.length_take]; omega)]
      rw [ih (l.drop 20) (page + 1) (acc ++ l.take 20) (reqs ++ [listReq page 20]) hpf' hfuel']
      rw [hk]
      rw [List.append_assoc acc, List.take_append_drop]
      rw [List.append_assoc reqs]
      congr 2
      rw [List.singleton_append]
      exact range_map_shift (fun n => listReq n 20) (l.length / 20) page

/-- `listNamespaces` against the honest page oracle returns the full
server listing and the sequential page-request trace. -/
theorem listNamespaces_spec (w : KVWorld) :
    listNamespaces w =
      (w.namespaces,
        (List.range (w.namespaces.length / 20 + 1)).map (fun i => listReq (1 + i) 20)) := by
  unfold listNamespaces
  rw [listLoop_spec (pageOf w.namespaces 20) (w.namespaces.length / 20 + 1) w.namespaces 1 [] []]
  · simp
  · intro j
    unfold pageOf
    congr 2
    omega
  · exact le_rfl

/-- `find?` returns the head of the first match: a prefix without matches
is skipped. -/
theorem find?_append_first {α : Type} (p : α → Bool) (l1 : List α) (a : α) (l2 : List α)
    (h1 : ∀ x ∈ l1, p x = false) (ha : p a = true) :
    (l1 ++ a :: l2).find? p = some a := by
  induction l1 with
  | nil => simp [List.find?_cons, ha]
  | cons x xs ih =>
    have hx : p x = false := h1 x (by simp)
    simp only [List.cons_append, List.find?_cons, hx]
    exact ih (fun y hy => h1 y (by simp [hy]))

end HelperLemmas

section FanOutLemmas

/-- When every enumerated key's value is truthy, the fan-out collects one
pair per key, in key order. -/
theorem promiseAll_fetchPair_ok (w : KVWorld) (srcId : String) :
    ∀ keys : List KeyEntry,
      (∀ k ∈ keys, jsTruthy (w.valueOf srcId k.name) = true) →
      promiseAll (keys.map (fetchPair w srcId)) =
        Except.ok (keys.map (fun k => { key := k.name, value := w.valueOf srcId k.name })) := by
  intro keys
  induction keys with
  | nil => intro _; rfl
  | cons k ks ih =>
    intro h
    have hk : jsTruthy (w.valueOf srcId k.name) = true := h k (by simp)
    have hrest := ih (fun x hx => h x (by simp [hx]))
    simp only [List.map_cons, promiseAll, fetchPair, hk, if_pos, hrest]
    rfl

/-- If some enumerated key's value is falsy, the fan-out fails. -/
theorem promiseAll_fetchPair_error (w : KVWorld) (srcId : String) :
    ∀ keys : List KeyEntry, ∀ k ∈ keys, jsTruthy (w.valueOf srcId k.name) = false →
      ∃ e, promiseAll (keys.map (fetchPair w srcId)) = Except.error e := by
  intro keys
  induction keys with
  | nil => intro k hk; simp at hk
  | cons x xs ih =>
    intro k hk hfalsy
    rcases List.mem_cons.mp hk with hkx | hkxs
    · subst hkx
      refine ⟨"Value not found for a key " ++ k.name ++ ".", ?_⟩
      simp only [List.map_cons, promiseAll, fetchPair, hfalsy]
      rfl
    · by_cases hx : jsTruthy (w.valueOf srcId x.name) = true
      · obtain ⟨e, he⟩ := ih k hkxs hfalsy
        refine ⟨e, ?_⟩
        simp only [List.map_cons, promiseAll, fetchPair, hx, if_pos, he]
        rfl
      · have hx2 : jsTruthy (w.valueOf srcId x.name) = false := by simpa using hx
        refine ⟨"Value not found for a key " ++ x.name ++ ".", ?_⟩
        simp only [List.map_cons, promiseAll, fetchPair, hx2]
        rfl

/-- Any successful fan-out certifies that every enumerated key's value was
truthy. -/
theorem promiseAll_fetchPair_ok_inv (w : KVWorld) (srcId : String) :
    ∀ (keys : List KeyEntry) (l : List Pair),
      promiseAll (keys.map (fetchPair w srcId)) = Except.ok l →
      ∀ k ∈ keys, jsTruthy (w.valueOf srcId k.name) = true := by
  intro keys
  induction keys with
  | nil => intro l _ k hk; simp at hk
  | cons x xs ih =>
    intro l hok k hk
    by_cases hx : jsTruthy (w.valueOf srcId x.name) = true
    · rcases List.mem_cons.mp hk with hkx | hkxs
      · subst hkx; exact hx
      · simp only [List.map_cons, promiseAll, fetchPair, hx, if_pos] at hok
        rcases hrest : promiseAll (xs.map (fetchPair w srcId)) with e | l'
        · rw [hrest] at hok; exact absurd hok (by simp [Except.map])
        · exact ih l' hrest k hkxs
    · have hx2 : jsTruthy (w.valueOf srcId x.name) = false := by simpa using hx
      simp only [List.map_cons, promiseAll, fetchPair, hx2] at hok
      exact absurd hok (by simp)

end FanOutLemmas

section BulkPutLemmas

/-- One step of the bulk-upsert fold. -/
theorem applyBulkPut_cons (m : String → Option Json) (p : Pair) (ps : List Pair) (k : String) :
    applyBulkPut m (p :: ps) k =
      applyBulkPut (fun k' => if k' = p.key then some p.value else m k') ps k := rfl

/-- A bulk upsert leaves keys outside its payload unchanged. -/
theorem applyBulkPut_not_mem (ps : List Pair) :
    ∀ (m : String → Option Json) (k : String), (∀ p ∈ ps, p.key ≠ k) →
      applyBulkPut m ps k = m k := by
  induction ps with
  | nil => intro m k _; rfl
  | cons p ps ih =>
    intro m k h
    rw [applyBulkPut_cons, ih _ k (fun q hq => h q (by simp [hq]))]
    rw [if_neg (fun hkp => h p (by simp) hkp.symm)]

/-- After a bulk upsert whose payload maps each enumerated key name to
`g` of that name, every enumerated key is mapped to its `g`-value. -/
theorem applyBulkPut_keys_mapped (g : String → Json) :
    ∀ (keys : List KeyEntry) (m : String → Option Json) (k : String),
      k ∈ keys.map (fun e => e.name) →
      applyBulkPut m (keys.map (fun e => { key := e.name, value := g e.name })) k =
        some (g k) := by
  intro keys
  induction keys with
  | nil => intro m k h; simp at h
  | cons e es ih =>
    intro m k hk
    rw [List.map_cons, applyBulkPut_cons]
    by_cases hmem : k ∈ es.map (fun e => e.name)
    · exact ih _ k hmem
    · have hk2 : k = e.name ∨ ∃ a ∈ es, a.name = k := by simpa using hk
      have hke : k = e.name := by
        rcases hk2 with h | h
        · exact h
        · obtain ⟨a, ha, hag⟩ := h
          exact absurd (List.mem_map.mpr ⟨a, ha, hag⟩) hmem
      rw [applyBulkPut_not_mem]
      · simp [hke]
      · intro p hp
        simp only [List.mem_map] at hp
        obtain ⟨e', he', rfl⟩ := hp
        intro hkey
        have hek : e'.name = k := hkey
        exact hmem (hek ▸ List.mem_map.mpr ⟨e', he', rfl⟩)

end BulkPutLemmas

namespace V1

/-- Old revision `listNamespaces` (part_003 lines 83-99): one unpaginated
request for the full listing. -/
def listNamespaces (w : KVWorld) : List Namespace × List Request :=
  (w.namespaces,
    [{ category := "storage/kv", action := "namespaces", method := Method.GET, body := none }])

/-- Old revision `getNamespaceId` (part_003 lines 76-81). -/
def getNamespaceId (w : KVWorld) (title : String) : Option String × List Request :=
  let l := listNamespaces w
  ((l.1.find? (fun namespace_ => namespace_.title == title)).map (fun namespace_ => namespace_.id),
    l.2)

/-- Old revision `createNamespace` (part_003 lines 114-123). -/
def createNamespace (w : KVWorld) (title : String) : String × List Request :=
  (w.createId title,
    [{ category := "storage/kv", action := "namespaces", method := Method.POST,
       body := some (Body.titleObj title) }])

/-- One task of the old revision's per-key fan-out (part_003 lines
142-151): the produced pair's value is `JSON.stringify(value)`, a JSON
string, where the current revision keeps the decoded value itself. -/
def fetchPair (w : KVWorld) (srcId : String) (k : KeyEntry) : Except String Pair :=
  let value := w.valueOf srcId k.name
  if jsTruthy value then Except.ok { key := k.name, value := Json.str (serialize value) }
  else Except.error ("Value not found for a key " ++ k.name ++ ".")

/-- The old revision's fan-out over the enumerated keys. -/
def fetchAllValues (w : KVWorld) (srcId : String) (keys : List KeyEntry) :
    Except String (List Pair) × List Request :=
  (promiseAll (keys.map (fetchPair w srcId)), keys.map (fun k => valueReq srcId k.name))

/-- Old revision `copyNamespace` (part_003 lines 125-156): resolve the
source, list its keys (base `storage/kv` here), resolve-or-create the
destination, fan out the value reads (building JSON-stringified pair
values), then issue the bulk upsert. -/
def copyNamespace (w : KVWorld) (src dest : String) : Except String Unit × List Request :=
  let r := getNamespaceId w src
  match r.1 with
  | none => (Except.error ("Namespace " ++ src ++ " not found."), r.2)
  | some srcId =>
    if srcId == "" then (Except.error ("Namespace " ++ src ++ " not found."), r.2)
    else
      let keys := w.keysOf srcId
      let keysReqs : List Request :=
        [{ category := "storage/kv", action := "namespaces/" ++ srcId ++ "/keys",
           method := Method.GET, body := none }]
      let rd := getNamespaceId w dest
      let destId := match rd.1 with | some d => d | none => (createNamespace w dest).1
      let createReqs : List Request :=
        match rd.1 with
        | some _ => []
        | none => (createNamespace w dest).2
      let fv := fetchAllValues w srcId keys
      match fv.1 with
      | Except.error e => (Except.error e, r.2 ++ keysReqs ++ rd.2 ++ createReqs ++ fv.2)
      | Except.ok pairs =>
        (Except.ok (), r.2 ++ keysReqs ++ rd.2 ++ createReqs ++ fv.2 ++ [bulkPutReq destId pairs])

end V1

/-- A world with no namespaces at all. -/
def emptyWorld : KVWorld :=
  { namespaces := []
    keysOf := fun _ => []
    valueOf := fun _ _ => Json.null
    createId := fun _ => "c0" }

/-- The key entry named `x`. -/
def keyX : KeyEntry := { name := "x", expiration := none, metadata := none }

/-- A world with one namespace `A` (id `s`) holding the single key `x`
with value `1`; no namespace titled `B` exists. -/
def world1 : KVWorld :=
  { namespaces := [{ id := "s", title := "A", support_url_encoding := false }]
    keysOf := fun id => if id = "s" then [keyX] else []
    valueOf := fun _ _ => Json.num 1
    createId := fun _ => "d" }

/-- Like `world1` but a namespace titled `B` (id `d`) also exists. -/
def world2 : KVWorld :=
  { namespaces := [{ id := "s", title := "A", support_url_encoding := false },
                   { id := "d", title := "B", support_url_encoding := false }]
    keysOf := fun id => if id = "s" then [keyX] else []
    valueOf := fun _ _ => Json.num 1
    createId := fun _ => "c0" }

/-- A world identical to `world1` except that every stored value is the
JSON literal `null` (a falsy payload). -/
def falsyWorld : KVWorld :=
  { namespaces := [{ id := "s", title := "A", support_url_encoding := false }]
    keysOf := fun id => if id = "s" then [keyX] else []
    valueOf := fun _ _ => Json.null
    createId := fun _ => "d" }

/-- A world with two namespaces sharing the title `A`. -/
def dupWorld : KVWorld :=
  { namespaces := [{ id := "id1", title := "A", support_url_encoding := false },
                   { id := "id2", title := "A", support_url_encoding := false }]
    keysOf := fun _ => []
    valueOf := fun _ _ => Json.null
    createId := fun _ => "c0" }

/-- C5: for every non-value-read API call whose decoded envelope has
`success = false`, the transport fails with exactly the `"<code>: <message>"`
pairs of the envelope's error list joined by newlines, issuing exactly one
request (no retry); for `success = true` the decoded envelope is
returned; and value-read endpoints (actions containing `/values/`) return
the decoded body unmodified with no envelope check. -/
theorem fetchAPI_envelope_contract (srv : Server) (category action : String)
    (method : Method) (body : Option Body) :
    fetchAPI srv category action method body =
      (let req : Request :=
        { category := category, action := action, method := method, body := body }
       ((if containsSubstr action "/values/" then Except.ok (FetchOut.raw (srv.valueAt req))
         else if (srv.respond req).success then Except.ok (FetchOut.env (srv.respond req))
         else Except.error (String.intercalate "\n"
           ((srv.respond req).errors.map (fun e => toString e.code ++ ": " ++ e.message)))),
        [req])) := by
  simp only [fetchAPI]
  split_ifs <;> rfl

/-- C3: for a server holding `N` namespaces at fixed page size 20, the
paginated `list()` returns exactly the server's title-ordered listing and
issues pages sequentially from page 1, with `ceil(N/20)` requests when
`N % 20 ≠ 0` and `N/20 + 1` requests when `N % 20 = 0` (one request for
`N = 0`). -/
theorem listNamespaces_pagination (w : KVWorld) :
    (listNamespaces w).1 = w.namespaces ∧
    (listNamespaces w).2 =
      (List.range (w.namespaces.length / 20 + 1)).map (fun i => listReq (1 + i) 20) ∧
    (listNamespaces w).2.length =
      (if w.namespaces.length % 20 = 0 then w.namespaces.length / 20 + 1
       else (w.namespaces.length + 19) / 20) := by
  have h := listNamespaces_spec w
  refine ⟨by rw [h], by rw [h], ?_⟩
  rw [h]
  simp only [List.length_map, List.length_range]
  by_cases h20 : w.namespaces.length % 20 = 0
  · rw [if_pos h20]
  · rw [if_neg h20]; omega

/-- C4: `resolve(title)` returns the id of the first namespace in listing
order whose title equals the argument, returns not-found exactly when no
namespace in the listing has that title, and on duplicate titles the first
match in title order wins. -/
theorem getNamespaceId_first_match (w : KVWorld) (title : String) :
    (getNamespaceId w title).1 =
      (w.namespaces.find? (fun namespace_ => namespace_.title == title)).map
        (fun namespace_ => namespace_.id) ∧
    ((getNamespaceId w title).1 = none ↔
      ∀ namespace_ ∈ w.namespaces, namespace_.title ≠ title) ∧
    (∀ l1 namespace_ l2, w.namespaces = l1 ++ namespace_ :: l2 → namespace_.title = title →
      (∀ x ∈ l1, x.title ≠ title) → (getNamespaceId w title).1 = some namespace_.id) := by
  have h1 : (getNamespaceId w title).1 =
      (w.namespaces.find? (fun n => n.title == title)).map (fun n => n.id) := by
    unfold getNamespaceId
    rw [listNamespaces_spec w]
  refine ⟨h1, ?_, ?_⟩
  · rw [h1]
    simp [List.find?_eq_none]
  · intro l1 ns l2 hdec htitle hl1
    rw [h1, hdec]
    rw [find?_append_first (fun n => n.title == title) l1 ns l2
      (fun x hx => by simp [hl1 x hx]) (by simp [htitle])]
    rfl

/-- Witness for C4 at a listing with a duplicated title: the first match
in listing order wins. -/
theorem getNamespaceId_first_match_witness :
    (getNamespaceId dupWorld "A").1 = some "id1" :=
  (getNamespaceId_first_match dupWorld "A").2.2 []
    { id := "id1", title := "A", support_url_encoding := false }
    [{ id := "id2", title := "A", support_url_encoding := false }] rfl rfl (by simp)

/-- C7: when the source title resolves to not-found, `rename` fails with
the not-found error, its request trace is exactly the resolution's
listing trace, and every issued request is a GET — no update request is
issued, so the remote state is unchanged. -/
theorem renameNamespace_notfound_no_mutation (w : KVWorld) (src dest : String)
    (h : (getNamespaceId w src).1 = none) :
    (renameNamespace w src dest).1 = Except.error ("Namespace " ++ src ++ " not found") ∧
    (renameNamespace w src dest).2 = (getNamespaceId w src).2 ∧
    (∀ r ∈ (renameNamespace w src dest).2, r.method = Method.GET) := by
  have hr : renameNamespace w src dest =
      (Except.error ("Namespace " ++ src ++ " not found"), (getNamespaceId w src).2) := by
    unfold renameNamespace
    rcases hg : getNamespaceId w src with ⟨o, reqs⟩
    rw [hg] at h
    simp only at h
    subst h
    rfl
  have htr : (getNamespaceId w src).2 =
      (List.range (w.namespaces.length / 20 + 1)).map (fun i => listReq (1 + i) 20) := by
    unfold getNamespaceId
    rw [listNamespaces_spec w]
  refine ⟨by rw [hr], by rw [hr], ?_⟩
  intro r hrm
  rw [hr] at hrm
  simp only at hrm
  rw [htr] at hrm
  obtain ⟨i, _, rfl⟩ := List.mem_map.mp hrm
  rfl

/-- Witness for C7: renaming the absent namespace `A` of the empty world
fails with the not-found error and issues only the listing request. -/
theorem renameNamespace_notfound_no_mutation_witness :
    (getNamespaceId emptyWorld "A").1 = none ∧
    (renameNamespace emptyWorld "A" "Z").1 = Except.error "Namespace A not found" ∧
    (renameNamespace emptyWorld "A" "Z").2 = (getNamespaceId emptyWorld "A").2 :=
  ⟨rfl, (renameNamespace_notfound_no_mutation emptyWorld "A" "Z" rfl).1,
    (renameNamespace_notfound_no_mutation emptyWorld "A" "Z" rfl).2.1⟩

/-- C6: the per-key value fan-out fails as a whole when any enumerated
key's fetched value is falsy (empty/undefined), returning no partial
collection, and succeeds with exactly one `{key, value}` pair per
enumerated key when every value is truthy; all per-key requests are
issued. -/
theorem fetchAllValues_failfast (w : KVWorld) (srcId : String) (keys : List KeyEntry) :
    ((∀ k ∈ keys, jsTruthy (w.valueOf srcId k.name) = true) ↔
      (fetchAllValues w srcId keys).1 =
        Except.ok (keys.map (fun k => { key := k.name, value := w.valueOf srcId k.name }))) ∧
    ((∃ k ∈ keys, jsTruthy (w.valueOf srcId k.name) = false) ↔
      ∃ e, (fetchAllValues w srcId keys).1 = Except.error e) ∧
    (fetchAllValues w srcId keys).2 = keys.map (fun k => valueReq srcId k.name) := by
  refine ⟨⟨fun h => ?_, fun h => ?_⟩, ⟨fun h => ?_, fun h => ?_⟩, rfl⟩
  · exact promiseAll_fetchPair_ok w srcId keys h
  · exact promiseAll_fetchPair_ok_inv w srcId keys _ h
  · obtain ⟨k, hk, hfalsy⟩ := h
    exact promiseAll_fetchPair_error w srcId keys k hk hfalsy
  · obtain ⟨e, he⟩ := h
    by_contra hno
    push_neg at hno
    have hall : ∀ k ∈ keys, jsTruthy (w.valueOf srcId k.name) = true := by
      intro k hk
      simpa using hno k hk
    have hok := promiseAll_fetchPair_ok w srcId keys hall
    have he2 : promiseAll (keys.map (fetchPair w srcId)) = Except.error e := he
    rw [hok] at he2
    exact Except.noConfusion he2

/-- Witness for C6: in `world1` the single key `x` has the truthy value
`1`, so the fan-out returns exactly its pair. -/
theorem fetchAllValues_failfast_witness :
    (fetchAllValues world1 "s" [keyX]).1 = Except.ok [{ key := "x", value := Json.num 1 }] :=
  (fetchAllValues_failfast world1 "s" [keyX]).1.mp (by decide)

/-- C9: a value read that returns a JSON-falsy payload (`null`, `false`,
`0`, or the empty string) makes the fan-out raise the missing-value error
for that key even though a value was returned; truthiness characterizes
exactly these four payloads, so only JSON-truthy payloads are accepted. -/
theorem falsy_value_rejected (w : KVWorld) (srcId : String) (keys : List KeyEntry)
    (k : KeyEntry) (hk : k ∈ keys)
    (hv : w.valueOf srcId k.name = Json.null ∨ w.valueOf srcId k.name = Json.bool false ∨
      w.valueOf srcId k.name = Json.num 0 ∨ w.valueOf srcId k.name = Json.str "") :
    jsTruthy (w.valueOf srcId k.name) = false ∧
    fetchPair w srcId k = Except.error ("Value not found for a key " ++ k.name ++ ".") ∧
    (∃ e, (fetchAllValues w srcId keys).1 = Except.error e) ∧
    (∀ v : Json, jsTruthy v = false ↔
      (v = Json.null ∨ v = Json.bool false ∨ v = Json.num 0 ∨ v = Json.str "")) := by
  have hchar : ∀ v : Json, jsTruthy v = false ↔
      (v = Json.null ∨ v = Json.bool false ∨ v = Json.num 0 ∨ v = Json.str "") := by
    intro v
    cases v <;> simp [jsTruthy]
  have hfalsy : jsTruthy (w.valueOf srcId k.name) = false := (hchar _).mpr hv
  refine ⟨hfalsy, ?_, promiseAll_fetchPair_error w srcId keys k hk hfalsy, hchar⟩
  simp [fetchPair, hfalsy]

/-- Witness for C9: in `falsyWorld` the stored payload is the JSON
literal `null`, and the fan-out rejects the key `x`. -/
theorem falsy_value_rejected_witness :
    fetchPair falsyWorld "s" keyX = Except.error "Value not found for a key x." ∧
    (∃ e, (fetchAllValues falsyWorld "s" [keyX]).1 = Except.error e) :=
  ⟨(falsy_value_rejected falsyWorld "s" [keyX] keyX (by simp) (Or.inl rfl)).2.1,
   (falsy_value_rejected falsyWorld "s" [keyX] keyX (by simp) (Or.inl rfl)).2.2.1⟩

/-- Happy-path unfolding of `bulkGetNamespace`: with a resolvable, truthy
source id and all values truthy, it returns one pair per enumerated key
and its trace is the resolution trace, the key-listing request (category
`"strage/kv"`, verbatim from kvtool.ts line 162), then the value-read
fan-out. -/
theorem bulkGetNamespace_ok (w : KVWorld) (src srcId : String)
    (hsrc : (getNamespaceId w src).1 = some srcId) (hid : srcId ≠ "")
    (hvals : ∀ k ∈ w.keysOf srcId, jsTruthy (w.valueOf srcId k.name) = true) :
    bulkGetNamespace w src =
      (Except.ok
        ((w.keysOf srcId).map (fun k => { key := k.name, value := w.valueOf srcId k.name })),
        (getNamespaceId w src).2 ++
          [{ category := "strage/kv", action := "namespaces/" ++ srcId ++ "/keys",
             method := Method.GET, body := none }] ++
          (w.keysOf srcId).map (fun k => valueReq srcId k.name)) := by
  unfold bulkGetNamespace
  rcases hg : getNamespaceId w src with ⟨o, reqs⟩
  rw [hg] at hsrc
  simp only at hsrc
  subst hsrc
  dsimp only
  rw [if_neg (show ¬ ((srcId == "") = true) by simp [hid])]
  dsimp only [fetchAllValues]
  rw [promiseAll_fetchPair_ok w srcId (w.keysOf srcId) hvals]

/-- C1: `copy(src, dest)` first resolves and fetches all key/value pairs
of the source namespace, then resolves the destination title and creates
a namespace with the destination title exactly when that resolution is
not-found; the pairs are delivered in one final bulk-upsert request, and
applying that payload leaves the destination holding every source key
with the same value. -/
theorem copyNamespace_correct (w : KVWorld) (src dest srcId : String)
    (hsrc : (getNamespaceId w src).1 = some srcId) (hid : srcId ≠ "")
    (hvals : ∀ k ∈ w.keysOf srcId, jsTruthy (w.valueOf srcId k.name) = true) :
    ∃ destId,
      copyNamespace w src dest =
        (Except.ok (),
          (bulkGetNamespace w src).2 ++ (getNamespaceId w dest).2 ++
            (if (getNamespaceId w dest).1 = none
             then [{ category := "storage/kv", action := "namespaces", method := Method.POST,
                     body := some (Body.titleObj dest) }]
             else []) ++
            [bulkPutReq destId
              ((w.keysOf srcId).map
                (fun k => { key := k.name, value := w.valueOf srcId k.name }))]) ∧
      ((getNamespaceId w dest).1 = none → destId = w.createId dest) ∧
      (∀ d, (getNamespaceId w dest).1 = some d → destId = d) ∧
      (∀ (m : String → Option Json) (k : String),
        k ∈ (w.keysOf srcId).map (fun e => e.name) →
        applyBulkPut m
          ((w.keysOf srcId).map (fun e => { key := e.name, value := w.valueOf srcId e.name }))
          k = some (w.valueOf srcId k)) := by
  have hbg := bulkGetNamespace_ok w src srcId hsrc hid hvals
  have happly : ∀ (m : String → Option Json) (k : String),
      k ∈ (w.keysOf srcId).map (fun e => e.name) →
      applyBulkPut m
        ((w.keysOf srcId).map (fun e => { key := e.name, value := w.valueOf srcId e.name }))
        k = some (w.valueOf srcId k) :=
    fun m k hk => applyBulkPut_keys_mapped (w.valueOf srcId) (w.keysOf srcId) m k hk
  unfold copyNamespace
  rw [hbg]
  rcases hd : getNamespaceId w dest with ⟨od, dreqs⟩
  cases od with
  | some d =>
    refine ⟨d, ?_, fun h => absurd h (by simp), fun d' h => ?_, happly⟩
    · dsimp only
      rw [if_neg (show ¬ ((some d : Option String) = none) by simp), List.append_nil]
    · exact Option.some.inj h
  | none =>
    refine ⟨w.createId dest, ?_, fun _ => rfl, fun d' h => Option.noConfusion h, happly⟩
    dsimp only
    rw [if_pos rfl]
    rfl

/-- Witness for C1: copying `A` of `world1` to the absent title `B`
creates `B` (id `d`) and bulk-upserts the single source pair. -/
theorem copyNamespace_correct_witness :
    (getNamespaceId world1 "A").1 = some "s" ∧
    (∃ destId,
      copyNamespace world1 "A" "B" =
        (Except.ok (),
          (bulkGetNamespace world1 "A").2 ++ (getNamespaceId world1 "B").2 ++
            (if (getNamespaceId world1 "B").1 = none
             then [{ category := "storage/kv", action := "namespaces", method := Method.POST,
                     body := some (Body.titleObj "B") }]
             else []) ++
            [bulkPutReq destId
              ((world1.keysOf "s").map
                (fun k => { key := k.name, value := world1.valueOf "s" k.name }))]) ∧
      ((getNamespaceId world1 "B").1 = none → destId = world1.createId "B") ∧
      (∀ d, (getNamespaceId world1 "B").1 = some d → destId = d) ∧
      (∀ (m : String → Option Json) (k : String),
        k ∈ (world1.keysOf "s").map (fun e => e.name) →
        applyBulkPut m
          ((world1.keysOf "s").map
            (fun e => { key := e.name, value := world1.valueOf "s" e.name }))
          k = some (world1.valueOf "s" k))) :=
  ⟨rfl, copyNamespace_correct world1 "A" "B" "s" rfl (by decide) (by decide)⟩

/-- C2 is violated by the code: the key-listing request issued by
`bulkGetNamespace` (used by copy and dump) carries the category string
`"strage/kv"` (kvtool.ts line 162), so its URL is not under the
`storage/kv` base, while the key-listing request of `clearNamespace`
(kvtool.ts line 189) is. -/
theorem keyListing_category_typo :
    (bulkGetNamespace world1 "A").2.get? 1 =
      some { category := "strage/kv", action := "namespaces/s/keys",
             method := Method.GET, body := none } ∧
    ((bulkGetNamespace world1 "A").2.get? 1).map (urlPath "acct") =
      some "accounts/acct/strage/kv/namespaces/s/keys" ∧
    (clearNamespace world1 "A").2.get? 1 =
      some { category := "storage/kv", action := "namespaces/s/keys",
             method := Method.GET, body := none } ∧
    ("strage/kv" == "storage/kv") = false :=
  ⟨rfl, rfl, rfl, rfl⟩

/-- C8's ordering is violated by the code: `ensureDir(dir)` is started
but its promise is never awaited (kvtool.ts line 207), so every per-key
write starts before directory creation completes; the per-key content
part holds — exactly one write per enumerated key, named by the raw key,
with the JSON-serialized value as contents. -/
theorem dump_write_before_ensure :
    (dumpNamespace world1 "A" "out").2.2 =
      [FsEvent.ensureDirStart "out", FsEvent.writeStart "out/x" "1",
       FsEvent.ensureDirDone "out"] ∧
    ensuredBeforeWrites (dumpNamespace world1 "A" "out").2.2 = false ∧
    ((dumpNamespace world1 "A" "out").2.2.filter
      (fun e => match e with | FsEvent.writeStart _ _ => true | _ => false)).length = 1 :=
  ⟨rfl, rfl, rfl⟩

/-- Old-revision analogue of `promiseAll_fetchPair_ok`: with all values
truthy, the fan-out collects one pair per key whose value is the
JSON-stringified payload. -/
theorem promiseAll_v1_fetchPair_ok (w : KVWorld) (srcId : String) :
    ∀ keys : List KeyEntry,
      (∀ k ∈ keys, jsTruthy (w.valueOf srcId k.name) = true) →
      promiseAll (keys.map (V1.fetchPair w srcId)) =
        Except.ok (keys.map (fun k =>
          { key := k.name, value := Json.str (serialize (w.valueOf srcId k.name)) })) := by
  intro keys
  induction keys with
  | nil => intro _; rfl
  | cons k ks ih =>
    intro h
    have hk : jsTruthy (w.valueOf srcId k.name) = true := h k (by simp)
    have hrest := ih (fun x hx => h x (by simp [hx]))
    simp only [List.map_cons, promiseAll, V1.fetchPair, hk, if_pos, hrest]
    rfl

/-- C10 fails on the code: at one and the same world (same source
namespace, key entries, fetched values and destination resolution) the
two revisions upload different bulk payloads, because the old revision
JSON-stringifies each value field. -/
theorem copy_payload_not_equal :
    (V1.copyNamespace world2 "A" "B").2.getLast?.bind (fun r => r.body) ≠
      (copyNamespace world2 "A" "B").2.getLast?.bind (fun r => r.body) := by
  intro h
  have h1 : (V1.copyNamespace world2 "A" "B").2.getLast?.bind (fun r => r.body) =
      some (Body.pairs [{ key := "x", value := Json.str "1" }]) := rfl
  have h2 : (copyNamespace world2 "A" "B").2.getLast?.bind (fun r => r.body) =
      some (Body.pairs [{ key := "x", value := Json.num 1 }]) := rfl
  rw [h1, h2] at h
  simp only [Option.some.injEq, Body.pairs.injEq, List.cons.injEq, Pair.mk.injEq] at h
  exact Json.noConfusion h.1.2

/-- C10 amended: under identical responses, the bulk-upsert payload of
the earlier revision is the current revision's payload with every value
field replaced by its JSON serialization (a JSON string); both revisions
address the same destination id in their final bulk-upsert request. -/
theorem copy_payload_serialize_relation (w : KVWorld) (src dest srcId : String)
    (hsrc : (w.namespaces.find? (fun n => n.title == src)).map (fun n => n.id) = some srcId)
    (hid : srcId ≠ "")
    (hvals : ∀ k ∈ w.keysOf srcId, jsTruthy (w.valueOf srcId k.name) = true) :
    ∃ destId,
      (copyNamespace w src dest).2.getLast? =
        some (bulkPutReq destId
          ((w.keysOf srcId).map
            (fun k => { key := k.name, value := w.valueOf srcId k.name }))) ∧
      (V1.copyNamespace w src dest).2.getLast? =
        some (bulkPutReq destId
          (((w.keysOf srcId).map
              (fun k => { key := k.name, value := w.valueOf srcId k.name })).map
            (fun p : Pair => { key := p.key, value := Json.str (serialize p.value) }))) := by
  have hsrc2 : (getNamespaceId w src).1 = some srcId := by
    unfold getNamespaceId
    rw [listNamespaces_spec w]
    exact hsrc
  have hbg := bulkGetNamespace_ok w src srcId hsrc2 hid hvals
  have hgd : (getNamespaceId w dest).1 =
      (w.namespaces.find? (fun n => n.title == dest)).map (fun n => n.id) := by
    unfold getNamespaceId
    rw [listNamespaces_spec w]
  unfold copyNamespace V1.copyNamespace
  rw [hbg]
  dsimp only [V1.getNamespaceId, V1.listNamespaces]
  rw [hsrc]
  dsimp only
  rw [if_neg (show ¬ ((srcId == "") = true) by simp [hid])]
  dsimp only [V1.fetchAllValues]
  rw [promiseAll_v1_fetchPair_ok w srcId (w.keysOf srcId) hvals]
  rw [hgd]
  cases hd : (w.namespaces.find? (fun n => n.title == dest)).map (fun n => n.id) with
  | none =>
    refine ⟨w.createId dest, ?_, ?_⟩
    · dsimp only
      rw [List.getLast?_concat]
      rfl
    · dsimp only
      rw [List.getLast?_concat, List.map_map]
      rfl
  | some d =>
    refine ⟨d, ?_, ?_⟩
    · dsimp only
      rw [List.getLast?_concat]
    · dsimp only
      rw [List.getLast?_concat, List.map_map]
      rfl

/-- Witness for the amended C10 at `world2`: the old payload is the new
payload with the single value `1` replaced by the JSON string `"1"`. -/
theorem copy_payload_serialize_relation_witness :
    ∃ destId,
      (copyNamespace world2 "A" "B").2.getLast? =
        some (bulkPutReq destId
          ((world2.keysOf "s").map
            (fun k => { key := k.name, value := world2.valueOf "s" k.name }))) ∧
      (V1.copyNamespace world2 "A" "B").2.getLast? =
        some (bulkPutReq destId
          (((world2.keysOf "s").map
              (fun k => { key := k.name, value := world2.valueOf "s" k.name })).map
            (fun p : Pair => { key := p.key, value := Json.str (serialize p.value) }))) :=
  copy_payload_serialize_relation world2 "A" "B" "s" rfl (by decide) (by decide)
